import Mathlib

/-!
Shallow embedding of the prombench kubernetes reconciler, from
`provider/k8s/k8s.go` and the second revision of the same package
(`src/unnamed/part_001`): manifest collection, template rendering, document
splitting and decoding, per-kind create-or-update dispatch, delete with
confirmation, and the bounded readiness/deletion pollers.

External collaborators are modelled as oracles or parameters, the way the
design document treats them: the kubernetes API transport (list/get/create/
update/delete results), the typed decoder of `scheme.Codecs`, the Go
`text/template` engine, and the filesystem visited by `filepath.Walk`.

Go strings are modelled as `String` where only equality and concatenation
matter, and as `List Char` where the code manipulates their bytes
(`strings.Split`, `strings.TrimSpace`, `len`, `text[:100]`); characters are
assumed to be ASCII-compatible where Go counts bytes.
-/

namespace Prombench

/-! ### Go string helpers (strings.Replace, ToLower, Split, TrimSpace, len) -/

/-- One character of `strings.ToLower` restricted to ASCII; the Go function
also maps non-ASCII letters, which never occur in kind names. -/
def goCharLower (c : Char) : Char :=
  if 'A' ≤ c ∧ c ≤ 'Z' then Char.ofNat (c.toNat + 32) else c

/-- Embedding of `strings.ToLower` as used on resource kind names. -/
def goToLower (s : String) : String :=
  ⟨s.data.map goCharLower⟩

/-- Character map underlying `strings.Replace(t, ".", "-", -1)`: for a
single-character pattern the sequential non-overlapping replacement is the
pointwise map. -/
def goReplaceDot : List Char → List Char
  | [] => []
  | c :: cs => (if c = '.' then '-' else c) :: goReplaceDot cs

/-- The template helper registered as `normalise` in `applyTemplateVars`:
`strings.Replace(t, ".", "-", -1)`. -/
def normalise (s : String) : String :=
  ⟨goReplaceDot s.data⟩

/-- Embedding of `strings.Split(s, "---")`, the document separator used by
`ResourceApply`/`ResourceDelete`/`DeploymentsParse`: split around each
non-overlapping occurrence of three dashes, scanning left to right. -/
def splitDashes : List Char → List Char → List (List Char)
  | [], acc => [acc.reverse]
  | '-' :: '-' :: '-' :: rest, acc => acc.reverse :: splitDashes rest []
  | c :: rest, acc => splitDashes rest (c :: acc)

/-- Whitespace recognised by the model of `strings.TrimSpace` (the ASCII
subset of Unicode white space, which covers manifest text). -/
def isSpaceGo (c : Char) : Bool :=
  c = ' ' ∨ c = '\t' ∨ c = '\n' ∨ c = '\r'

/-- Embedding of `strings.TrimSpace`: drop leading and trailing whitespace. -/
def goTrim (l : List Char) : List Char :=
  ((l.dropWhile isSpaceGo).reverse.dropWhile isSpaceGo).reverse

/-- Go `len` of a string: its UTF-8 byte length. -/
def goLen (l : List Char) : Nat :=
  (l.map Char.utf8Size).sum

/-- Bytes taken by the defined part of a Go slice `s[:budget]`, used only to
build the decode error message when the slice is in range. -/
def takeBytes : Nat → List Char → List Char
  | _, [] => []
  | budget, c :: cs => if c.utf8Size ≤ budget then c :: takeBytes (budget - c.utf8Size) cs else []

/-! ### Remote resource identities and the cluster state oracle -/

/-- Identity of a remote resource: its kind, the namespace of the collection
addressed (empty for cluster-scoped collections) and its name. -/
structure ResKey where
  kind : String
  ns : String
  name : String
deriving DecidableEq, Repr

/-- Observable remote cluster state: the set of existing resources, as the
`List` calls of the handlers report it. -/
structure Cluster where
  items : List ResKey
deriving DecidableEq, Repr

/-- A resource document after typed decoding: kind, version, namespace and
name, as read off the decoded object. -/
structure DecodedObj where
  kind : String
  version : String
  ns : String
  name : String
deriving DecidableEq, Repr

/-- The observable log events of the reconciler: the `log.Printf` lines for
created/updated/deleted resources and the per-resource error lines of the
dispatch loops. -/
inductive LogEvent where
  | created (kind name : String)
  | updated (kind name : String)
  | deleted (kind name : String)
  | applyError (file msg : String)
  | deleteError (file msg : String)
deriving DecidableEq, Repr

/-- Result of one `Update` attempt as the remote reports it. -/
inductive UpdateOutcome where
  | ok
  | conflict
  | otherErr (msg : String)
deriving DecidableEq, Repr

/-- Result of a `Get` call as the remote reports it. -/
inductive GetResult where
  | found
  | notFound
  | otherErr (msg : String)
deriving DecidableEq, Repr

/-- Oracles for the remote collaborators of one run: the conflict-retry
budget, the sequence of update outcomes per resource, the attempt-indexed
result of the readiness predicates invoked by the poller, the attempt-indexed
`Get` result for namespace-deletion confirmation, and the poller budget
`provider.GlobalRetryCount`. -/
structure ApiEnv where
  steps : Nat
  upd : ResKey → Nat → UpdateOutcome
  poll : ResKey → Nat → Except String Bool
  nsGet : String → Nat → GetResult
  retryCount : Nat

/-! ### Conflict retry and the bounded poller -/

/-- Attempt loop of the conflict-retry utility; `i` indexes attempts. -/
def rocAux (upd : Nat → UpdateOutcome) : Nat → Nat → Except String Unit
  | 0, _ => Except.error "conflict retry exhausted"
  | n + 1, i =>
    match upd i with
    | UpdateOutcome.ok => Except.ok ()
    | UpdateOutcome.conflict => rocAux upd n (i + 1)
    | UpdateOutcome.otherErr m => Except.error m

/-- Modelled from the spec: the Conflict-Retry Utility
(`retry.RetryOnConflict` of client-go, an external collaborator): bounded
attempts, each attempt re-submits the same desired spec, a conflict triggers
another attempt, any other error is fatal. -/
def retryOnConflict (steps : Nat) (upd : Nat → UpdateOutcome) : Except String Unit :=
  rocAux upd steps 0

/-- Attempt loop of the poller; the first argument of the recursion is the
remaining budget, the second the index of the next attempt. -/
def retryAux (desc : String) (pred : Nat → Except String Bool) : Nat → Nat → Except String Unit
  | 0, _ => Except.error ("timeout waiting for " ++ desc)
  | n + 1, i =>
    match pred i with
    | Except.error e => Except.error e
    | Except.ok true => Except.ok ()
    | Except.ok false => retryAux desc pred n (i + 1)

/-- Modelled from the spec: `provider.RetryUntilTrue` (package
`pkg/provider`, not under src/): call the predicate repeatedly, with a fixed
inter-attempt delay, until it returns true, returns an error (propagated
immediately), or the attempt budget is exhausted, which yields a timeout
error carrying the description. -/
def retryUntilTrue (desc : String) (maxAttempts : Nat) (pred : Nat → Except String Bool) :
    Except String Unit :=
  retryAux desc pred maxAttempts 0

/-- Convert a handler call result into the optional error the dispatch loop
logs. -/
def errOpt : Except String Unit → Option String
  | Except.ok _ => none
  | Except.error e => some e

/-! ### Readiness and deletion predicates (deploymentReady, daemonsetReady,
namespaceDeleted) -/

/-- Embedding of `deploymentReady`: the version switch, the `Get` of the
remote deployment (reported here as its observed available-replica count or
a transport error), the desired count defaulting to 1 when
`Spec.Replicas == nil`, and the equality test. -/
def deploymentReady (version : String) (getRes : Except String Int) (specReplicas : Option Int) :
    Except String Bool :=
  if version = "v1" then
    match getRes with
    | Except.error e => Except.error ("Checking Deployment resource status failed: " ++ e)
    | Except.ok available =>
      let replicas : Int :=
        match specReplicas with
        | some r => r
        | none => 1
      if available = replicas then Except.ok true else Except.ok false
  else Except.error ("unknown object version: " ++ version)

/-- Embedding of `daemonsetReady`: ready exactly when the observed
`Status.NumberUnavailable` equals zero. -/
def daemonsetReady (version : String) (getRes : Except String Int) : Except String Bool :=
  if version = "v1" then
    match getRes with
    | Except.error e => Except.error ("Checking DaemonSet resource status failed: " ++ e)
    | Except.ok numberUnavailable =>
      if numberUnavailable = 0 then Except.ok true else Except.ok false
  else Except.error ("unknown object version: " ++ version)

/-- Embedding of `namespaceDeleted`: a `Get` returning not-found means
deleted, any other `Get` error is fatal, and a still-found namespace means
not yet deleted. -/
def namespaceDeleted (get : GetResult) (version : String) : Except String Bool :=
  if version = "v1" then
    match get with
    | GetResult.notFound => Except.ok true
    | GetResult.found => Except.ok false
    | GetResult.otherErr m => Except.error ("Couldn't get namespace: " ++ m)
  else Except.error ("unknown object version: " ++ version)

/-- One delete request as issued against the remote, recording the
propagation policy passed in `DeleteOptions`. -/
structure DeleteCall where
  name : String
  propagation : String
deriving DecidableEq, Repr

/-- Result of `namespaceDelete`: the delete request issued (none when the
version switch rejects the object) and the returned error value. -/
structure NsDeleteOut where
  call : Option DeleteCall
  result : Except String Unit

/-- Embedding of `namespaceDelete`: on version v1 issue a foreground
propagation delete, then confirm disappearance through the poller with twice
the global budget, using `namespaceDeleted` over successive `Get` results. -/
def namespaceDelete (retryCount : Nat) (get : Nat → GetResult) (name version : String) :
    NsDeleteOut :=
  if version = "v1" then
    ⟨some ⟨name, "Foreground"⟩,
      retryUntilTrue ("deleting namespace:" ++ name) (2 * retryCount)
        (fun i => namespaceDeleted (get i) "v1")⟩
  else ⟨none, Except.error ("unknown object version: " ++ version)⟩

/-! ### The per-kind create-or-update handlers and the dispatch loops -/

/-- The kinds of the `ResourceApply`/`ResourceDelete` switch of
`provider/k8s/k8s.go` (lower-cased, as the switch scrutinee is). -/
def supportedKindsCommon : List String :=
  ["clusterrole", "clusterrolebinding", "configmap", "daemonset", "deployment",
   "ingress", "namespace", "role", "rolebinding", "service", "serviceaccount",
   "secret", "persistentvolumeclaim"]

/-- The kinds of the switch in the second revision of the package, which adds
`customresourcedefinition`. -/
def supportedApplyKinds : List String :=
  supportedKindsCommon ++ ["customresourcedefinition"]

/-- Kinds whose handlers address a cluster-wide collection (no namespace
argument to the client). -/
def clusterScoped (kind : String) : Bool :=
  kind = "clusterrole" ∨ kind = "clusterrolebinding" ∨ kind = "namespace" ∨
    kind = "customresourcedefinition"

/-- Namespace of the collection a handler addresses: cluster-scoped kinds use
the global collection; namespaced handlers default an empty namespace to
"default" before creating the client. -/
def effectiveNs (kind ns : String) : String :=
  if clusterScoped kind then "" else if ns = "" then "default" else ns

/-- The version each handler's switch accepts; every other version falls into
the unknown-object-version branch. -/
def expectedVersion (kind : String) : String :=
  if kind = "ingress" ∨ kind = "customresourcedefinition" then "v1beta1" else "v1"

/-- The identity under which a decoded object is applied: dispatch lower-cases
the kind and the handler picks the collection's namespace. -/
def applyKey (o : DecodedObj) : ResKey :=
  ⟨goToLower o.kind, effectiveNs (goToLower o.kind) o.ns, o.name⟩

/-- The `List` call of a handler: all existing resources of the kind in the
collection addressed. -/
def listKind (c : Cluster) (kind ns : String) : List ResKey :=
  c.items.filter (fun i => i.kind = kind ∧ i.ns = ns)

/-- The existence test of every handler: some listed item has the target's
name. -/
def existsByName (l : List ResKey) (name : String) : Bool :=
  l.any (fun i => i.name = name)

/-- What a handler does after a successful create: deployments and services
return the result of a poll through `provider.RetryUntilTrue`; the daemonset
handler calls its readiness predicate once, discarding the result; all other
kinds return immediately. On the update path every handler returns
immediately after logging. -/
inductive PostStep where
  | nothing
  | pollReady (descLabel : String)
  | singleCheck
deriving DecidableEq, Repr

/-- Post-create step per kind, mirroring the tail of each apply handler. -/
def postStepFor : String → PostStep
  | "deployment" => PostStep.pollReady "applying deployment:"
  | "service" => PostStep.pollReady "applying service:"
  | "daemonset" => PostStep.singleCheck
  | _ => PostStep.nothing

/-- What one handler call produces: the cluster as left by the call, the
`log.Printf` events emitted inside the handler, and the error value the
handler returns to the dispatch loop. -/
structure HandlerOut where
  cluster : Cluster
  events : List LogEvent
  err : Option String
deriving Repr

/-- Embedding of the uniform apply handler shape shared by every supported
kind (`configMapApply`, `serviceApply`, ...): the version switch, the `List`
of the kind's collection, the existence test by name, an update wrapped in
the conflict retry when the target exists (then return), and a create
otherwise, followed by the kind-specific post step. Create and list transport
are taken as succeeding; update outcomes come from the environment. -/
def kindApply (env : ApiEnv) (c : Cluster) (kind : String) (o : DecodedObj) : HandlerOut :=
  let ns := effectiveNs kind o.ns
  let key : ResKey := ⟨kind, ns, o.name⟩
  if o.version = expectedVersion kind then
    if existsByName (listKind c kind ns) o.name then
      match retryOnConflict env.steps (env.upd key) with
      | Except.ok _ => ⟨c, [LogEvent.updated kind o.name], none⟩
      | Except.error e =>
        ⟨c, [], some ("resource update failed - kind: " ++ kind ++ ", name: " ++ o.name
          ++ ": " ++ e)⟩
    else
      let c' : Cluster := ⟨key :: c.items⟩
      match postStepFor kind with
      | PostStep.pollReady d =>
        ⟨c', [LogEvent.created kind o.name],
          errOpt (retryUntilTrue (d ++ o.name) env.retryCount (env.poll key))⟩
      | PostStep.singleCheck =>
        -- daemonSetApply invokes daemonsetReady once here and discards both
        -- returned values, then returns nil.
        ⟨c', [LogEvent.created kind o.name], none⟩
      | PostStep.nothing => ⟨c', [LogEvent.created kind o.name], none⟩
  else
    ⟨c, [], some ("unknown object version: " ++ o.version ++ " kind:" ++ kind
      ++ ", name:" ++ o.name)⟩

/-- One iteration of the apply dispatch loop: lower-case the kind, route it
through the switch (an unsupported kind yields the default-branch error), and
log a per-resource error line if the handler returned one; the loop then
continues with the next resource. -/
def applyObject (table : List String) (env : ApiEnv) (file : String) (c : Cluster)
    (o : DecodedObj) : Cluster × List LogEvent :=
  let kind := goToLower o.kind
  let out : HandlerOut :=
    if table.contains kind then kindApply env c kind o
    else ⟨c, [], some ("creating request for unimplimented resource type:" ++ kind)⟩
  (out.cluster, out.events ++
    (match out.err with
     | some m => [LogEvent.applyError file m]
     | none => []))

/-- The apply dispatch loop over the decoded objects of one file, in document
order. -/
def applyObjects (table : List String) (env : ApiEnv) (file : String) :
    Cluster → List DecodedObj → Cluster × List LogEvent
  | c, [] => (c, [])
  | c, o :: os =>
    let r1 := applyObject table env file c o
    let r2 := applyObjects table env file r1.1 os
    (r2.1, r1.2 ++ r2.2)

/-- Embedding of the uniform delete handler shape: the version switch, a
delete by name with foreground propagation (taken as succeeding, removing the
identity from the remote state), and, for the namespace kind only, the
deletion-confirmation poll of `namespaceDelete`. -/
def kindDelete (env : ApiEnv) (c : Cluster) (kind : String) (o : DecodedObj) : HandlerOut :=
  let ns := effectiveNs kind o.ns
  let key : ResKey := ⟨kind, ns, o.name⟩
  if o.version = expectedVersion kind then
    let c' : Cluster := ⟨c.items.filter (fun i => ¬(i = key))⟩
    if kind = "namespace" then
      ⟨c', [LogEvent.deleted kind o.name],
        errOpt (namespaceDelete env.retryCount (env.nsGet o.name) o.name o.version).result⟩
    else ⟨c', [LogEvent.deleted kind o.name], none⟩
  else
    ⟨c, [], some ("unknown object version: " ++ o.version ++ " kind:" ++ kind
      ++ ", name:" ++ o.name)⟩

/-- One iteration of the delete dispatch loop, mirroring `applyObject`. -/
def deleteObject (table : List String) (env : ApiEnv) (file : String) (c : Cluster)
    (o : DecodedObj) : Cluster × List LogEvent :=
  let kind := goToLower o.kind
  let out : HandlerOut :=
    if table.contains kind then kindDelete env c kind o
    else ⟨c, [], some ("deleting request for unimplimented resource type:" ++ kind)⟩
  (out.cluster, out.events ++
    (match out.err with
     | some m => [LogEvent.deleteError file m]
     | none => []))

/-- The delete dispatch loop over the decoded objects of one file. -/
def deleteObjects (table : List String) (env : ApiEnv) (file : String) :
    Cluster → List DecodedObj → Cluster × List LogEvent
  | c, [] => (c, [])
  | c, o :: os =>
    let r1 := deleteObject table env file c o
    let r2 := deleteObjects table env file r1.1 os
    (r2.1, r1.2 ++ r2.2)

/-! ### ResourceApply over raw file content: splitting, decoding, dispatch -/

/-- Result of `scheme.Codecs.UniversalDeserializer().Decode` on one document
section, as the external decoder reports it: a typed object, a nil object, or
a decode error. -/
inductive DecodeResult where
  | obj (o : DecodedObj)
  | nilObj
  | fail (msg : String)
deriving DecidableEq, Repr

/-- One manifest file as handed to `ResourceApply`: its name and its rendered
content. -/
structure ResourceFile where
  name : String
  content : List Char

/-- Outcome of a `ResourceApply` run: a normal return (nil error), an early
return with an error (the decode-failure branch), or the Go runtime panic
raised by the out-of-range slice `text[:100]` inside that branch. The log
collects the events emitted before the run ended. -/
inductive RunOutcome where
  | finished (c : Cluster) (log : List LogEvent)
  | aborted (c : Cluster) (log : List LogEvent) (msg : String)
  | crashed (c : Cluster) (log : List LogEvent)
deriving DecidableEq, Repr

/-- Log accessor of a run outcome. -/
def RunOutcome.log : RunOutcome → List LogEvent
  | RunOutcome.finished _ l => l
  | RunOutcome.aborted _ l _ => l
  | RunOutcome.crashed _ l => l

/-- True when the run returned the decode error (the `return errors.Wrapf`
branch). -/
def RunOutcome.isAborted : RunOutcome → Bool
  | RunOutcome.aborted _ _ _ => true
  | _ => false

/-- True when the run completed normally. -/
def RunOutcome.isFinished : RunOutcome → Bool
  | RunOutcome.finished _ _ => true
  | _ => false

/-- Prepend earlier events to a run outcome's log. -/
def RunOutcome.withLog (l : List LogEvent) : RunOutcome → RunOutcome
  | RunOutcome.finished c log => RunOutcome.finished c (l ++ log)
  | RunOutcome.aborted c log m => RunOutcome.aborted c (l ++ log) m
  | RunOutcome.crashed c log => RunOutcome.crashed c (l ++ log)

/-- Embedding of the per-section loop of `ResourceApply`: trim each split
section, skip empty ones, decode, and on a decode failure return the wrapped
error — whose message slices `text[:100]` and therefore panics when the
trimmed section is shorter than 100 bytes; a nil object is skipped; a decoded
object goes through the dispatch switch, errors being logged and the loop
continuing. -/
def applyFileSections (table : List String) (env : ApiEnv) (decode : List Char → DecodeResult)
    (file : String) : Cluster → List (List Char) → RunOutcome
  | c, [] => RunOutcome.finished c []
  | c, raw :: rest =>
    let text := goTrim raw
    if goLen text = 0 then applyFileSections table env decode file c rest
    else
      match decode text with
      | DecodeResult.fail msg =>
        if 100 ≤ goLen text then
          RunOutcome.aborted c []
            ("decoding the resource file:" ++ file ++ ", section:"
              ++ String.mk (takeBytes 100 text) ++ "...: " ++ msg)
        else RunOutcome.crashed c []
      | DecodeResult.nilObj => applyFileSections table env decode file c rest
      | DecodeResult.obj o =>
        let r := applyObject table env file c o
        (applyFileSections table env decode file r.1 rest).withLog r.2

/-- Embedding of `ResourceApply` over its manifest files: each file's content
is split on the `---` separator and processed section by section; a decode
failure (or the panic inside its error branch) ends the whole run, leaving
every later file unprocessed. -/
def resourceApplyFiles (table : List String) (env : ApiEnv)
    (decode : List Char → DecodeResult) : Cluster → List ResourceFile → RunOutcome
  | c, [] => RunOutcome.finished c []
  | c, f :: fs =>
    match applyFileSections table env decode f.name c (splitDashes f.content []) with
    | RunOutcome.finished c1 l1 => (resourceApplyFiles table env decode c1 fs).withLog l1
    | RunOutcome.aborted c1 l1 m => RunOutcome.aborted c1 l1 m
    | RunOutcome.crashed c1 l1 => RunOutcome.crashed c1 l1

/-! ### Template rendering (applyTemplateVars) and the parse-then-apply
pipeline -/

/-- One piece of a manifest template: literal text, a variable placeholder,
or a placeholder passed through the `normalise` helper. -/
inductive TmplChunk where
  | lit (s : String)
  | hole (varName : String)
  | normHole (varName : String)
deriving DecidableEq, Repr

/-- A template file: its path and its parsed chunks. -/
structure TmplFile where
  name : String
  chunks : List TmplChunk
deriving DecidableEq, Repr

/-- Lookup of a variable in the caller-supplied bindings (Go map access). -/
def lookupVar (vars : List (String × String)) (n : String) : Option String :=
  match vars with
  | [] => none
  | (k, v) :: rest => if k = n then some v else lookupVar rest n

/-- True when a chunk references a variable absent from the bindings. -/
def chunkMissing (vars : List (String × String)) : TmplChunk → Bool
  | TmplChunk.lit _ => false
  | TmplChunk.hole n => (lookupVar vars n).isNone
  | TmplChunk.normHole n => (lookupVar vars n).isNone

/-- Modelled from the spec for the external `text/template` engine invoked
with `Option("missingkey=error")`: strict substitution, failing on any
placeholder whose name is not bound, with the `normalise` helper available. -/
def renderChunk (vars : List (String × String)) : TmplChunk → Except String String
  | TmplChunk.lit s => Except.ok s
  | TmplChunk.hole n =>
    match lookupVar vars n with
    | some v => Except.ok v
    | none => Except.error ("map has no entry for key " ++ n)
  | TmplChunk.normHole n =>
    match lookupVar vars n with
    | some v => Except.ok (normalise v)
    | none => Except.error ("map has no entry for key " ++ n)

/-- Rendering of a whole template: concatenate chunk renderings, stopping at
the first failure. -/
def renderChunks (vars : List (String × String)) : List TmplChunk → Except String String
  | [] => Except.ok ""
  | ch :: rest =>
    match renderChunk vars ch with
    | Except.error e => Except.error e
    | Except.ok s =>
      match renderChunks vars rest with
      | Except.error e => Except.error e
      | Except.ok tail => Except.ok (s ++ tail)

/-- Embedding of the render loop of `DeploymentsParse`: apply the template to
every collected file, in order; a failure (`log.Fatalf` in
`applyTemplateVars`) aborts the whole parse with no file applied. -/
def parseFiles (vars : List (String × String)) : List TmplFile → Except String (List ResourceFile)
  | [] => Except.ok []
  | f :: fs =>
    match renderChunks vars f.chunks with
    | Except.error e =>
      Except.error ("Failed to execute parse file:" ++ f.name ++ " err:" ++ e)
    | Except.ok content =>
      match parseFiles vars fs with
      | Except.error e => Except.error e
      | Except.ok rest => Except.ok (⟨f.name, content.data⟩ :: rest)

/-- The parse-then-apply pipeline of the CLI actions (`DeploymentsParse`
followed by `K8sResourceApply`): the first component collects every network
apply event, the second the run's error value. No network call happens
during the parse phase. -/
def runPipeline (table : List String) (env : ApiEnv) (decode : List Char → DecodeResult)
    (vars : List (String × String)) (files : List TmplFile) (c : Cluster) :
    List LogEvent × Except String Unit :=
  match parseFiles vars files with
  | Except.error e => ([], Except.error e)
  | Except.ok rendered =>
    match resourceApplyFiles table env decode c rendered with
    | RunOutcome.finished _ l => (l, Except.ok ())
    | RunOutcome.aborted _ l m => (l, Except.error m)
    | RunOutcome.crashed _ l => (l, Except.error "runtime error: slice bounds out of range")

/-! ### Manifest collection (the file-list loop of DeploymentsParse) -/

/-- Extension scan of `filepath.Ext` over the reversed characters of a path:
the suffix starting at the final dot of the final path element, empty when
that element has no dot. -/
def goExtRev : List Char → List Char → Option (List Char)
  | [], _ => none
  | c :: rest, acc =>
    if c = '/' then none
    else if c = '.' then some ('.' :: acc)
    else goExtRev rest (c :: acc)

/-- Embedding of `filepath.Ext`. -/
def goExt (path : String) : String :=
  match goExtRev path.data.reverse [] with
  | some e => ⟨e⟩
  | none => ""

/-- The extension filter of the walk callback: keep `.yaml` and `.yml`
entries. -/
def extIsYaml (path : String) : Bool :=
  goExt path = ".yaml" ∨ goExt path = ".yml"

/-- A filesystem node as `filepath.Walk` visits it; children are listed in
the lexical order the walk (an external collaborator that sorts directory
entries) produces, which makes traversal order deterministic. -/
inductive FsNode where
  | file (name : String)
  | dir (name : String) (children : List FsNode)

/-- Name of a node (its final path element). -/
def FsNode.nodeName : FsNode → String
  | FsNode.file n => n
  | FsNode.dir n _ => n

/-- Directory test of `os.Stat(...).IsDir()`. -/
def FsNode.isDir : FsNode → Bool
  | FsNode.file _ => false
  | FsNode.dir _ _ => true

/-- Embedding of the `filepath.Walk` invocation with the callback of
`DeploymentsParse`: visit the rooted path itself and then every descendant in
child order, keeping each visited path whose extension is `.yaml` or `.yml`
(whether it names a file or a directory, as the callback never checks). -/
def walkTree : String → FsNode → List String
  | path, FsNode.file _ => if extIsYaml path then [path] else []
  | path, FsNode.dir _ cs =>
    (if extIsYaml path then [path] else []) ++
      cs.attach.flatMap (fun c => walkTree (path ++ "/" ++ c.1.nodeName) c.1)
termination_by _ t => sizeOf t
decreasing_by
  simp_wf
  have h1 := List.sizeOf_lt_of_mem c.2
  simp [FsNode.dir.sizeOf_spec]
  omega

/-- Embedding of the file-list loop of `DeploymentsParse`: a path that stats
as a directory is expanded by the recursive walk; every other entry (plain
file, or a path that fails to stat) is appended verbatim, in argument
order. -/
def collectFiles (stat : String → Option FsNode) : List String → List String
  | [] => []
  | n :: rest =>
    (match stat n with
     | some t => if t.isDir then walkTree n t else [n]
     | none => [n]) ++ collectFiles stat rest

/-! ### Log event classifiers -/

/-- Error lines of the dispatch loops. -/
def isErrorEvent : LogEvent → Bool
  | LogEvent.applyError _ _ => true
  | LogEvent.deleteError _ _ => true
  | _ => false

/-- Successful created/updated outcome lines of the apply loop. -/
def isOutcomeEvent : LogEvent → Bool
  | LogEvent.created _ _ => true
  | LogEvent.updated _ _ => true
  | _ => false

/-- Successful deleted outcome lines of the delete loop. -/
def isDeletedEvent : LogEvent → Bool
  | LogEvent.deleted _ _ => true
  | _ => false

/-- Created event carrying a given resource name. -/
def isCreatedNamed (nm : String) : LogEvent → Bool
  | LogEvent.created _ n => n = nm
  | _ => false

/-! ### Concrete oracles used by witnesses and counterexamples -/

/-- An environment in which every remote interaction succeeds at once. -/
def idealEnv : ApiEnv :=
  ⟨1, fun _ _ => UpdateOutcome.ok, fun _ _ => Except.ok true, fun _ _ => GetResult.notFound, 1⟩

/-- An environment whose readiness predicates never become true and whose
namespace `Get` always still finds the object. -/
def neverReadyEnv : ApiEnv :=
  ⟨1, fun _ _ => UpdateOutcome.ok, fun _ _ => Except.ok false, fun _ _ => GetResult.found, 2⟩

/-- A decoder recognising exactly one configmap document and failing on
everything else. -/
def exDecode : List Char → DecodeResult := fun s =>
  if s = "kind: ConfigMap".data then DecodeResult.obj ⟨"ConfigMap", "v1", "", "cm1"⟩
  else DecodeResult.fail "no kind registered"

/-- An undecodable section of exactly 100 bytes. -/
def longBadSection : List Char := List.replicate 100 'x'

/-- A `Get` sequence observing the namespace on the first attempt and its
absence from the second attempt on. -/
def exGet : Nat → GetResult := fun j => if j = 0 then GetResult.found else GetResult.notFound

/-- The daemonset document used to exhibit the missing readiness poll. -/
def exDaemonSet : DecodedObj := ⟨"DaemonSet", "v1", "", "node-exporter"⟩

/-- A one-placeholder template file whose variable is unbound. -/
def exTmplFiles : List TmplFile := [⟨"m.yaml", [TmplChunk.hole "PR_NUMBER"]⟩]

/-- A batch with one unsupported kind among two supported resources. -/
def exMixedBatch : List DecodedObj :=
  [⟨"ConfigMap", "v1", "", "cm1"⟩,
   ⟨"FooBar", "v1", "", "x1"⟩,
   ⟨"Namespace", "v1", "", "prombench-9"⟩]

/-- The directory fixture of the collector witness. -/
def exTree : FsNode := FsNode.dir "manifests" [FsNode.file "a.yaml", FsNode.file "b.txt"]

/-- The filesystem fixture of the collector witness. -/
def exStat : String → Option FsNode := fun p =>
  if p = "manifests" then some exTree
  else if p = "notes.json" then some (FsNode.file "notes.json")
  else none

/-! ## Theorems -/

theorem goReplaceDot_eq_map (l : List Char) :
    goReplaceDot l = l.map (fun c => if c = '.' then '-' else c) := by
  induction l with
  | nil => rfl
  | cons c cs ih => simp [goReplaceDot, ih]

/-- Claim C9: the template helper normalise replaces every occurrence of the
character `.` with `-` and leaves every other character unchanged, so it is
the identity on dot-free strings; in particular
normalise "a.b.c" = "a-b-c". -/
theorem normalise_spec (s : String) :
    ((normalise s).data = s.data.map (fun c => if c = '.' then '-' else c)) ∧
    ((∀ c ∈ s.data, c ≠ '.') → normalise s = s) ∧
    (normalise "a.b.c" = "a-b-c") := by
  refine ⟨by simp [normalise, goReplaceDot_eq_map], ?_, by decide⟩
  intro hfree
  cases s with
  | mk l =>
    show String.mk (goReplaceDot l) = String.mk l
    congr 1
    rw [goReplaceDot_eq_map]
    induction l with
    | nil => rfl
    | cons c cs ih =>
      have hc : c ≠ '.' := hfree c (by simp)
      simp only [List.map_cons, if_neg hc, List.cons.injEq, true_and]
      exact ih (fun x hx => hfree x (by simp [hx]))

/-- Witness for C9: the identity conjunct applied to the dot-free string
"abc". -/
theorem normalise_spec_witness :
    (∀ c ∈ ("abc" : String).data, c ≠ '.') ∧ normalise "abc" = "abc" :=
  ⟨by decide, (normalise_spec "abc").2.1 (by decide)⟩

/-- Claim C6: the deployment readiness predicate returns true exactly when
the observed available-replica count equals the desired count, desired
defaulting to 1 when the spec leaves replicas unset; for desired = 3 it
returns false whenever the available count is below 3 and true exactly at
3. -/
theorem deploymentReady_spec (avail : Int) (spec : Option Int) :
    ((deploymentReady "v1" (Except.ok avail) spec = Except.ok true) ↔ avail = spec.getD 1) ∧
    (avail < 3 → deploymentReady "v1" (Except.ok avail) (some 3) = Except.ok false) ∧
    ((deploymentReady "v1" (Except.ok avail) (some 3) = Except.ok true) ↔ avail = 3) := by
  have hrepl : ∀ o : Option Int, (match o with | some r => r | none => 1) = o.getD 1 := by
    intro o; cases o <;> rfl
  refine ⟨?_, ?_, ?_⟩
  · by_cases h : avail = spec.getD 1 <;> simp [deploymentReady, hrepl, h]
  · intro hlt
    have hne : avail ≠ (3 : Int) := by omega
    simp [deploymentReady, hne]
  · by_cases h : avail = (3 : Int) <;> simp [deploymentReady, h]

/-- Witness for C6: with 2 of 3 desired replicas available the predicate is
false. -/
theorem deploymentReady_spec_witness :
    ((2 : Int) < 3) ∧ deploymentReady "v1" (Except.ok 2) (some 3) = Except.ok false :=
  ⟨by decide, (deploymentReady_spec 2 (some 3)).2.1 (by decide)⟩

theorem retryAux_timeout (desc : String) (pred : Nat → Except String Bool) :
    ∀ (n i : Nat), (∀ j, j < n → pred (i + j) = Except.ok false) →
      retryAux desc pred n i = Except.error ("timeout waiting for " ++ desc) := by
  intro n
  induction n with
  | zero => intro i _; rfl
  | succ n ih =>
    intro i h
    have h0 : pred i = Except.ok false := by simpa using h 0 (Nat.succ_pos n)
    have htail : retryAux desc pred n (i + 1) = Except.error ("timeout waiting for " ++ desc) := by
      apply ih
      intro j hj
      have := h (j + 1) (Nat.succ_lt_succ hj)
      rw [show i + 1 + j = i + (j + 1) by omega]
      exact this
    simp [retryAux, h0, htail]

theorem retryAux_ok (desc : String) (pred : Nat → Except String Bool) :
    ∀ (k n i : Nat), k < n → (∀ j, j < k → pred (i + j) = Except.ok false) →
      pred (i + k) = Except.ok true → retryAux desc pred n i = Except.ok () := by
  intro k
  induction k with
  | zero =>
    intro n i hn _ ht
    match n, hn with
    | Nat.succ m, _ =>
      have ht' : pred i = Except.ok true := by simpa using ht
      simp [retryAux, ht']
  | succ k ih =>
    intro n i hn hf ht
    match n, hn with
    | Nat.succ m, hn =>
      have h0 : pred i = Except.ok false := by simpa using hf 0 (Nat.succ_pos k)
      have htail : retryAux desc pred m (i + 1) = Except.ok () := by
        apply ih m (i + 1) (Nat.lt_of_succ_lt_succ hn)
        · intro j hj
          have := hf (j + 1) (Nat.succ_lt_succ hj)
          rw [show i + 1 + j = i + (j + 1) by omega]
          exact this
        · rw [show i + 1 + k = i + (k + 1) by omega]
          exact ht
      simp [retryAux, h0, htail]

theorem retryAux_error (desc : String) (pred : Nat → Except String Bool) (e : String) :
    ∀ (k n i : Nat), k < n → (∀ j, j < k → pred (i + j) = Except.ok false) →
      pred (i + k) = Except.error e → retryAux desc pred n i = Except.error e := by
  intro k
  induction k with
  | zero =>
    intro n i hn _ ht
    match n, hn with
    | Nat.succ m, _ =>
      have ht' : pred i = Except.error e := by simpa using ht
      simp [retryAux, ht']
  | succ k ih =>
    intro n i hn hf ht
    match n, hn with
    | Nat.succ m, hn =>
      have h0 : pred i = Except.ok false := by simpa using hf 0 (Nat.succ_pos k)
      have htail : retryAux desc pred m (i + 1) = Except.error e := by
        apply ih m (i + 1) (Nat.lt_of_succ_lt_succ hn)
        · intro j hj
          have := hf (j + 1) (Nat.succ_lt_succ hj)
          rw [show i + 1 + j = i + (j + 1) by omega]
          exact this
        · rw [show i + 1 + k = i + (k + 1) by omega]
          exact ht
      simp [retryAux, h0, htail]

/-- Claim C5: deleting a namespace issues a foreground-propagation delete and
polls the deletion-confirmation predicate with double the standard attempt
budget; the poll succeeds exactly once a Get reports not-found, propagates
any other Get error immediately, treats a still-found namespace as not yet
deleted, and yields a bounded timeout error when not-found is never observed
within the budget. -/
theorem namespaceDelete_spec (r : Nat) (get : Nat → GetResult) (nm : String) :
    ((namespaceDelete r get nm "v1").call = some ⟨nm, "Foreground"⟩) ∧
    (∀ k, k < 2 * r → (∀ j, j < k → get j = GetResult.found) →
      get k = GetResult.notFound →
      (namespaceDelete r get nm "v1").result = Except.ok ()) ∧
    (∀ k m, k < 2 * r → (∀ j, j < k → get j = GetResult.found) →
      get k = GetResult.otherErr m →
      (namespaceDelete r get nm "v1").result = Except.error ("Couldn't get namespace: " ++ m)) ∧
    ((∀ j, j < 2 * r → get j = GetResult.found) →
      (namespaceDelete r get nm "v1").result =
        Except.error ("timeout waiting for " ++ ("deleting namespace:" ++ nm))) := by
  refine ⟨rfl, ?_, ?_, ?_⟩
  · intro k hk hbefore hat
    show retryUntilTrue ("deleting namespace:" ++ nm) (2 * r)
      (fun i => namespaceDeleted (get i) "v1") = Except.ok ()
    apply retryAux_ok _ _ k (2 * r) 0 hk
    · intro j hj
      simp [namespaceDeleted, hbefore j hj]
    · simp [namespaceDeleted, hat]
  · intro k m hk hbefore hat
    show retryUntilTrue ("deleting namespace:" ++ nm) (2 * r)
      (fun i => namespaceDeleted (get i) "v1") = Except.error ("Couldn't get namespace: " ++ m)
    apply retryAux_error _ _ _ k (2 * r) 0 hk
    · intro j hj
      simp [namespaceDeleted, hbefore j hj]
    · simp [namespaceDeleted, hat]
  · intro hall
    show retryUntilTrue ("deleting namespace:" ++ nm) (2 * r)
      (fun i => namespaceDeleted (get i) "v1") =
      Except.error ("timeout waiting for " ++ ("deleting namespace:" ++ nm))
    apply retryAux_timeout
    intro j hj
    simp [namespaceDeleted, hall j (by omega)]

/-- Witness for C5: with a budget of two attempts, a namespace still found on
the first Get and gone on the second, deletion confirmation succeeds, and
the delete call carried foreground propagation. -/
theorem namespaceDelete_spec_witness :
    ((namespaceDelete 1 exGet "prombench-42" "v1").call
        = some ⟨"prombench-42", "Foreground"⟩) ∧
    (namespaceDelete 1 exGet "prombench-42" "v1").result = Except.ok () :=
  ⟨(namespaceDelete_spec 1 exGet "prombench-42").1,
    (namespaceDelete_spec 1 exGet "prombench-42").2.1 1 (by decide)
      (fun j hj => by
        have hj0 : j = 0 := by omega
        subst hj0
        rfl)
      (by rfl)⟩

/-- Claim C3 (code evaluated at the failing input): against a remote whose
readiness predicates never report ready, the daemonset apply handler still
returns success immediately after the create — it invokes its readiness
predicate once and discards the result instead of polling — whereas the
deployment handler run under the same conditions blocks in the Poller and
returns its bounded timeout error. -/
theorem daemonset_apply_skips_poller :
    (kindApply neverReadyEnv ⟨[]⟩ "daemonset" exDaemonSet).err = none ∧
    (kindApply neverReadyEnv ⟨[]⟩ "daemonset" exDaemonSet).events
      = [LogEvent.created "daemonset" "node-exporter"] ∧
    (kindApply neverReadyEnv ⟨[]⟩ "deployment" exDaemonSet).err
      = some ("timeout waiting for applying deployment:node-exporter") := by
  refine ⟨rfl, rfl, ?_⟩
  decide

/-- Claim C10: a non-empty document section shorter than 100 bytes after
trimming that fails to decode drives `ResourceApply` into the out-of-range
slice `text[:100]`: the run panics instead of returning the wrapped decode
error. -/
theorem short_undecodable_section_panics (table : List String) (env : ApiEnv)
    (decode : List Char → DecodeResult) (c : Cluster) (file : String)
    (text : List Char) (msg : String)
    (hsplit : splitDashes text [] = [text])
    (htrim : goTrim text = text)
    (hne : goLen text ≠ 0)
    (hshort : goLen text < 100)
    (hfail : decode text = DecodeResult.fail msg) :
    resourceApplyFiles table env decode c [⟨file, text⟩] = RunOutcome.crashed c [] := by
  have hno : ¬(100 ≤ goLen text) := by omega
  simp [resourceApplyFiles, hsplit, applyFileSections, htrim, hne, hfail, hno]

/-- Witness for C10: the nine-byte undecodable section "bad: true" makes the
run crash. -/
theorem short_undecodable_section_panics_witness :
    resourceApplyFiles supportedKindsCommon idealEnv exDecode ⟨[]⟩
        [⟨"bad.yaml", "bad: true".data⟩] = RunOutcome.crashed ⟨[]⟩ [] :=
  short_undecodable_section_panics supportedKindsCommon idealEnv exDecode ⟨[]⟩
    "bad.yaml" "bad: true".data "no kind registered"
    (by decide) (by decide) (by decide) (by decide) (by decide)

theorem RunOutcome.isFinished_withLog (l : List LogEvent) (r : RunOutcome) :
    (r.withLog l).isFinished = r.isFinished := by
  cases r <;> rfl

/-- Counterexample to claim C2: a batch of two manifest files whose first
file holds an undecodable section (of 100 bytes, so the error branch does not
panic). The run returns the decode error with an empty log — the second
file's configmap is never applied — although processing that second file
alone would have produced its created event. -/
theorem decode_failure_stops_later_files :
    (resourceApplyFiles supportedKindsCommon idealEnv exDecode ⟨[]⟩
        [⟨"bad.yaml", longBadSection⟩, ⟨"good.yaml", "kind: ConfigMap".data⟩]).isAborted
      = true ∧
    (resourceApplyFiles supportedKindsCommon idealEnv exDecode ⟨[]⟩
        [⟨"bad.yaml", longBadSection⟩, ⟨"good.yaml", "kind: ConfigMap".data⟩]).log = [] ∧
    (resourceApplyFiles supportedKindsCommon idealEnv exDecode ⟨[]⟩
        [⟨"good.yaml", "kind: ConfigMap".data⟩]).log
      = [LogEvent.created "configmap" "cm1"] := by
  refine ⟨by decide, by decide, by decide⟩

/-- Claim C2 as amended: a document decode failure aborts the entire
apply run, not just the failing file — once processing of a prefix of the
batch ends in the decode-error return (or the panic inside it), appending
further manifest files changes nothing: they are never processed. -/
theorem decode_failure_aborts_entire_run (table : List String) (env : ApiEnv)
    (decode : List Char → DecodeResult) (c : Cluster) (pre : List ResourceFile)
    (f : ResourceFile) (post : List ResourceFile)
    (h : (resourceApplyFiles table env decode c (pre ++ [f])).isFinished = false) :
    resourceApplyFiles table env decode c (pre ++ f :: post) =
      resourceApplyFiles table env decode c (pre ++ [f]) := by
  induction pre generalizing c with
  | nil =>
    simp only [List.nil_append] at h ⊢
    cases hA : applyFileSections table env decode f.name c (splitDashes f.content []) with
    | finished c1 l1 =>
      exfalso
      rw [show resourceApplyFiles table env decode c [f]
            = (resourceApplyFiles table env decode c1 []).withLog l1 by
          simp [resourceApplyFiles, hA]] at h
      rw [RunOutcome.isFinished_withLog] at h
      simp [resourceApplyFiles, RunOutcome.isFinished] at h
    | aborted c1 l1 m => simp [resourceApplyFiles, hA]
    | crashed c1 l1 => simp [resourceApplyFiles, hA]
  | cons p ps ih =>
    simp only [List.cons_append] at h ⊢
    cases hA : applyFileSections table env decode p.name c (splitDashes p.content []) with
    | finished c1 l1 =>
      rw [show resourceApplyFiles table env decode c (p :: (ps ++ [f]))
            = (resourceApplyFiles table env decode c1 (ps ++ [f])).withLog l1 by
          simp [resourceApplyFiles, hA]] at h
      rw [RunOutcome.isFinished_withLog] at h
      simp [resourceApplyFiles, hA, ih c1 h]
    | aborted c1 l1 m => simp [resourceApplyFiles, hA]
    | crashed c1 l1 => simp [resourceApplyFiles, hA]

/-- Witness for the amended C2: the two-file batch of the counterexample,
with and without the trailing good file, produces the same outcome. -/
theorem decode_failure_aborts_entire_run_witness :
    resourceApplyFiles supportedKindsCommon idealEnv exDecode ⟨[]⟩
        [⟨"bad.yaml", longBadSection⟩, ⟨"good.yaml", "kind: ConfigMap".data⟩]
      = resourceApplyFiles supportedKindsCommon idealEnv exDecode ⟨[]⟩
        [⟨"bad.yaml", longBadSection⟩] :=
  decode_failure_aborts_entire_run supportedKindsCommon idealEnv exDecode ⟨[]⟩
    [] ⟨"bad.yaml", longBadSection⟩ [⟨"good.yaml", "kind: ConfigMap".data⟩] (by decide)

theorem renderChunks_missing (vars : List (String × String)) :
    ∀ (chunks : List TmplChunk), (∃ ch ∈ chunks, chunkMissing vars ch = true) →
      ∃ e, renderChunks vars chunks = Except.error e := by
  intro chunks
  induction chunks with
  | nil =>
    rintro ⟨ch, hmem, _⟩
    cases hmem
  | cons ch rest ih =>
    rintro ⟨ch0, hmem, hmiss⟩
    rcases List.mem_cons.mp hmem with heq | htail
    · subst heq
      cases ch0 with
      | lit s => simp [chunkMissing] at hmiss
      | hole n =>
        have hn : lookupVar vars n = none := by
          simpa [chunkMissing, Option.isNone_iff_eq_none] using hmiss
        exact ⟨"map has no entry for key " ++ n, by simp [renderChunks, renderChunk, hn]⟩
      | normHole n =>
        have hn : lookupVar vars n = none := by
          simpa [chunkMissing, Option.isNone_iff_eq_none] using hmiss
        exact ⟨"map has no entry for key " ++ n, by simp [renderChunks, renderChunk, hn]⟩
    · rcases ih ⟨ch0, htail, hmiss⟩ with ⟨e, he⟩
      cases hrc : renderChunk vars ch with
      | error e1 => exact ⟨e1, by simp [renderChunks, hrc]⟩
      | ok s => exact ⟨e, by simp [renderChunks, hrc, he]⟩

theorem parseFiles_missing (vars : List (String × String)) :
    ∀ (files : List TmplFile),
      (∃ f ∈ files, ∃ ch ∈ f.chunks, chunkMissing vars ch = true) →
      ∃ e, parseFiles vars files = Except.error e := by
  intro files
  induction files with
  | nil =>
    rintro ⟨f, hmem, _⟩
    cases hmem
  | cons f fs ih =>
    rintro ⟨f0, hmem, hch⟩
    rcases List.mem_cons.mp hmem with heq | htail
    · subst heq
      rcases renderChunks_missing vars f0.chunks hch with ⟨e, he⟩
      exact ⟨"Failed to execute parse file:" ++ f0.name ++ " err:" ++ e,
        by simp [parseFiles, he]⟩
    · cases hrf : renderChunks vars f.chunks with
      | error e1 =>
        exact ⟨"Failed to execute parse file:" ++ f.name ++ " err:" ++ e1,
          by simp [parseFiles, hrf]⟩
      | ok content =>
        rcases ih ⟨f0, htail, hch⟩ with ⟨e, he⟩
        exact ⟨e, by simp [parseFiles, hrf, he]⟩

/-- Claim C7: a template referencing a placeholder absent from the supplied
bindings fails to render; the failure happens in the parse phase, so the
pipeline reports an error having made no network call (its apply-event log is
empty). -/
theorem missing_placeholder_fails_before_network (table : List String) (env : ApiEnv)
    (decode : List Char → DecodeResult) (vars : List (String × String))
    (files : List TmplFile) (c : Cluster)
    (hmiss : ∃ f ∈ files, ∃ ch ∈ f.chunks, chunkMissing vars ch = true) :
    (runPipeline table env decode vars files c).1 = [] ∧
    ∃ e, (runPipeline table env decode vars files c).2 = Except.error e := by
  rcases parseFiles_missing vars files hmiss with ⟨e, he⟩
  exact ⟨by simp [runPipeline, he], ⟨e, by simp [runPipeline, he]⟩⟩

/-- Witness for C7: an unbound PR_NUMBER placeholder aborts the pipeline with
no apply event. -/
theorem missing_placeholder_fails_before_network_witness :
    (runPipeline supportedKindsCommon idealEnv exDecode [] exTmplFiles ⟨[]⟩).1 = [] ∧
    ∃ e, (runPipeline supportedKindsCommon idealEnv exDecode [] exTmplFiles ⟨[]⟩).2
      = Except.error e :=
  missing_placeholder_fails_before_network supportedKindsCommon idealEnv exDecode []
    exTmplFiles ⟨[]⟩
    ⟨⟨"m.yaml", [TmplChunk.hole "PR_NUMBER"]⟩, by decide, TmplChunk.hole "PR_NUMBER",
      by decide, by decide⟩

theorem walkTree_ext_yaml (path : String) (t : FsNode) :
    ∀ p ∈ walkTree path t, extIsYaml p = true := by
  induction path, t using walkTree.induct with
  | case1 path n hyes =>
    intro p hp
    rw [walkTree, if_pos hyes] at hp
    rcases List.mem_singleton.mp hp with rfl
    exact hyes
  | case2 path n hno =>
    intro p hp
    rw [walkTree, if_neg hno] at hp
    cases hp
  | case3 path n cs ih =>
    intro p hp
    rw [walkTree] at hp
    rcases List.mem_append.mp hp with hleft | hright
    · split at hleft
      · next hyes =>
        rcases List.mem_singleton.mp hleft with rfl
        exact hyes
      · cases hleft
    · rcases List.mem_flatMap.mp hright with ⟨c, hc, hpc⟩
      exact ih c p hpc

/-- Claim C8: the manifest collector expands each directory entry by the
recursive walk keeping only `.yaml`/`.yml` entries, keeps every non-directory
entry verbatim regardless of extension, and concatenates the results in
argument order (the pure walk making the whole listing deterministic). -/
theorem collector_spec (stat : String → Option FsNode) (ns1 ns2 : List String)
    (n : String) (t : FsNode) :
    (collectFiles stat (ns1 ++ ns2) = collectFiles stat ns1 ++ collectFiles stat ns2) ∧
    ((∀ u, stat n = some u → u.isDir = false) → collectFiles stat [n] = [n]) ∧
    (stat n = some t → t.isDir = true →
      collectFiles stat [n] = walkTree n t ∧ ∀ p ∈ walkTree n t, extIsYaml p = true) := by
  refine ⟨?_, ?_, ?_⟩
  · induction ns1 with
    | nil => simp [collectFiles]
    | cons x xs ih => simp [collectFiles, ih]
  · intro hnd
    cases hs : stat n with
    | none => simp [collectFiles, hs]
    | some u =>
      have := hnd u hs
      simp [collectFiles, hs, this]
  · intro hs hd
    refine ⟨by simp [collectFiles, hs, hd], walkTree_ext_yaml n t⟩

/-- Witness for C8: on a fixture filesystem the collector keeps the plain
file "notes.json" verbatim and expands the directory "manifests" into its
walk, every path of which carries a yaml extension. -/
theorem collector_spec_witness :
    (collectFiles exStat ["notes.json"] = ["notes.json"]) ∧
    (collectFiles exStat ["manifests"] = walkTree "manifests" exTree) ∧
    (∀ p ∈ walkTree "manifests" exTree, extIsYaml p = true) := by
  refine ⟨?_, ?_, ?_⟩
  · exact (collector_spec exStat [] [] "notes.json" exTree).2.1
      (fun u hu => by
        have hh : FsNode.file "notes.json" = u := by
          simpa [exStat] using hu
        subst hh
        rfl)
  · exact ((collector_spec exStat [] [] "manifests" exTree).2.2 (by rfl) (by rfl)).1
  · exact ((collector_spec exStat [] [] "manifests" exTree).2.2 (by rfl) (by rfl)).2

theorem existsByName_iff (c : Cluster) (k n m : String) :
    existsByName (listKind c k n) m = true ↔ (⟨k, n, m⟩ : ResKey) ∈ c.items := by
  simp only [existsByName, listKind, List.any_eq_true, List.mem_filter,
    decide_eq_true_eq]
  constructor
  · rintro ⟨i, ⟨hi, hk, hn⟩, hm⟩
    have : i = (⟨k, n, m⟩ : ResKey) := by
      cases i
      simp_all
    rw [this] at hi
    exact hi
  · intro h
    exact ⟨⟨k, n, m⟩, ⟨h, rfl, rfl⟩, rfl⟩

theorem existsByName_eq_false (c : Cluster) (k n m : String)
    (h : (⟨k, n, m⟩ : ResKey) ∉ c.items) :
    existsByName (listKind c k n) m = false := by
  rw [Bool.eq_false_iff]
  intro htrue
  exact h ((existsByName_iff c k n m).mp htrue)

theorem applyObject_fresh (table : List String) (env : ApiEnv) (file : String)
    (c : Cluster) (o : DecodedObj)
    (htab : table.contains (goToLower o.kind) = true)
    (hver : o.version = expectedVersion (goToLower o.kind))
    (hfresh : applyKey o ∉ c.items)
    (hpoll : ∀ d key, retryUntilTrue d env.retryCount (env.poll key) = Except.ok ()) :
    applyObject table env file c o
      = (⟨applyKey o :: c.items⟩, [LogEvent.created (goToLower o.kind) o.name]) := by
  have hex : existsByName
      (listKind c (goToLower o.kind) (effectiveNs (goToLower o.kind) o.ns)) o.name = false :=
    existsByName_eq_false c _ _ _ hfresh
  simp only [applyObject, htab, if_true, kindApply, hver, if_pos rfl, hex,
    Bool.false_eq_true, if_false]
  cases hps : postStepFor (goToLower o.kind) <;>
    simp [hps, hpoll, errOpt, applyKey]

theorem applyObject_existing (table : List String) (env : ApiEnv) (file : String)
    (c : Cluster) (o : DecodedObj)
    (htab : table.contains (goToLower o.kind) = true)
    (hver : o.version = expectedVersion (goToLower o.kind))
    (hmem : applyKey o ∈ c.items)
    (hupd : ∀ key, retryOnConflict env.steps (env.upd key) = Except.ok ()) :
    applyObject table env file c o = (c, [LogEvent.updated (goToLower o.kind) o.name]) := by
  have hex : existsByName
      (listKind c (goToLower o.kind) (effectiveNs (goToLower o.kind) o.ns)) o.name = true :=
    (existsByName_iff c _ _ _).mpr hmem
  simp only [applyObject, htab, if_true, kindApply, hver, if_pos rfl, hex]
  simp [hupd]

theorem applyObject_unsupported (table : List String) (env : ApiEnv) (file : String)
    (c : Cluster) (o : DecodedObj)
    (htab : table.contains (goToLower o.kind) = false) :
    applyObject table env file c o
      = (c, [LogEvent.applyError file
          ("creating request for unimplimented resource type:" ++ goToLower o.kind)]) := by
  have h' : ¬(goToLower o.kind ∈ table) := by simpa using htab
  simp [applyObject, h']

theorem applyObjects_fresh (table : List String) (env : ApiEnv) (file : String) :
    ∀ (objs : List DecodedObj) (c : Cluster),
    (∀ o ∈ objs, table.contains (goToLower o.kind) = true) →
    (∀ o ∈ objs, o.version = expectedVersion (goToLower o.kind)) →
    (∀ d key, retryUntilTrue d env.retryCount (env.poll key) = Except.ok ()) →
    (∀ o ∈ objs, applyKey o ∉ c.items) →
    (objs.map applyKey).Nodup →
    applyObjects table env file c objs
      = (⟨(objs.map applyKey).reverse ++ c.items⟩,
         objs.map (fun o => LogEvent.created (goToLower o.kind) o.name)) := by
  intro objs
  induction objs with
  | nil => intro c _ _ _ _ _; rfl
  | cons o os ih =>
    intro c hsup hver hpoll hfresh hnd
    have h1 : applyObject table env file c o
        = (⟨applyKey o :: c.items⟩, [LogEvent.created (goToLower o.kind) o.name]) :=
      applyObject_fresh table env file c o (hsup o (by simp)) (hver o (by simp))
        (hfresh o (by simp)) hpoll
    have hnd2 := hnd
    rw [List.map_cons, List.nodup_cons] at hnd2
    have h2 : applyObjects table env file ⟨applyKey o :: c.items⟩ os
        = (⟨(os.map applyKey).reverse ++ (applyKey o :: c.items)⟩,
           os.map (fun o => LogEvent.created (goToLower o.kind) o.name)) := by
      apply ih
      · intro x hx; exact hsup x (by simp [hx])
      · intro x hx; exact hver x (by simp [hx])
      · exact hpoll
      · intro x hx
        simp only [List.mem_cons]
        rintro (hxk | hxk)
        · exact hnd2.1 (hxk ▸ List.mem_map_of_mem applyKey hx)
        · exact hfresh x (by simp [hx]) hxk
      · exact hnd2.2
    simp [applyObjects, h1, h2, List.append_assoc]

theorem applyObjects_existing (table : List String) (env : ApiEnv) (file : String) :
    ∀ (objs : List DecodedObj) (c : Cluster),
    (∀ o ∈ objs, table.contains (goToLower o.kind) = true) →
    (∀ o ∈ objs, o.version = expectedVersion (goToLower o.kind)) →
    (∀ key, retryOnConflict env.steps (env.upd key) = Except.ok ()) →
    (∀ o ∈ objs, applyKey o ∈ c.items) →
    applyObjects table env file c objs
      = (c, objs.map (fun o => LogEvent.updated (goToLower o.kind) o.name)) := by
  intro objs
  induction objs with
  | nil => intro c _ _ _ _; rfl
  | cons o os ih =>
    intro c hsup hver hupd hmem
    have h1 : applyObject table env file c o
        = (c, [LogEvent.updated (goToLower o.kind) o.name]) :=
      applyObject_existing table env file c o (hsup o (by simp)) (hver o (by simp))
        (hmem o (by simp)) hupd
    have h2 : applyObjects table env file c os
        = (c, os.map (fun o => LogEvent.updated (goToLower o.kind) o.name)) := by
      apply ih
      · intro x hx; exact hsup x (by simp [hx])
      · intro x hx; exact hver x (by simp [hx])
      · exact hupd
      · intro x hx; exact hmem x (by simp [hx])
    simp [applyObjects, h1, h2]

/-- Claim C1: every supported apply handler lists the existing resources of
its kind's collection (in the resource's effective namespace for namespaced
kinds), tests existence by an item whose name equals the target's, updates
under the bounded conflict retry when it exists and creates otherwise; hence
applying a batch of distinct names twice against an empty cluster yields
exactly the created events on the first run and the updated events on the
second — never two created events for the same name. -/
theorem apply_twice_idempotent (env : ApiEnv) (file : String) (objs : List DecodedObj)
    (hsup : ∀ o ∈ objs, supportedApplyKinds.contains (goToLower o.kind) = true)
    (hver : ∀ o ∈ objs, o.version = expectedVersion (goToLower o.kind))
    (hupd : ∀ key, retryOnConflict env.steps (env.upd key) = Except.ok ())
    (hpoll : ∀ d key, retryUntilTrue d env.retryCount (env.poll key) = Except.ok ())
    (hnames : (objs.map DecodedObj.name).Nodup) :
    (applyObjects supportedApplyKinds env file ⟨[]⟩ objs).2
      = objs.map (fun o => LogEvent.created (goToLower o.kind) o.name) ∧
    (applyObjects supportedApplyKinds env file
        (applyObjects supportedApplyKinds env file ⟨[]⟩ objs).1 objs).2
      = objs.map (fun o => LogEvent.updated (goToLower o.kind) o.name) ∧
    (∀ nm, ((applyObjects supportedApplyKinds env file ⟨[]⟩ objs).2
        ++ (applyObjects supportedApplyKinds env file
            (applyObjects supportedApplyKinds env file ⟨[]⟩ objs).1 objs).2).countP
          (isCreatedNamed nm) ≤ 1) := by
  have hkeys : (objs.map applyKey).Nodup := by
    apply List.Nodup.of_map ResKey.name
    rw [List.map_map]
    have hfun : (ResKey.name ∘ applyKey) = DecodedObj.name := rfl
    rw [hfun]
    exact hnames
  have hrun1 : applyObjects supportedApplyKinds env file ⟨[]⟩ objs
      = (⟨(objs.map applyKey).reverse ++ []⟩,
         objs.map (fun o => LogEvent.created (goToLower o.kind) o.name)) :=
    applyObjects_fresh supportedApplyKinds env file objs ⟨[]⟩ hsup hver hpoll
      (fun o _ => by simp) hkeys
  have hrun2 : applyObjects supportedApplyKinds env file
        (applyObjects supportedApplyKinds env file ⟨[]⟩ objs).1 objs
      = ((applyObjects supportedApplyKinds env file ⟨[]⟩ objs).1,
         objs.map (fun o => LogEvent.updated (goToLower o.kind) o.name)) := by
    apply applyObjects_existing supportedApplyKinds env file objs _ hsup hver hupd
    intro o ho
    rw [show (applyObjects supportedApplyKinds env file ⟨[]⟩ objs).1
          = ⟨(objs.map applyKey).reverse ++ []⟩ by rw [hrun1]]
    simp only [List.append_nil, List.mem_reverse]
    exact List.mem_map_of_mem applyKey ho
  refine ⟨by rw [hrun1], by rw [hrun2], ?_⟩
  intro nm
  rw [show (applyObjects supportedApplyKinds env file ⟨[]⟩ objs).2
        = objs.map (fun o => LogEvent.created (goToLower o.kind) o.name) by rw [hrun1]]
  rw [show (applyObjects supportedApplyKinds env file
        (applyObjects supportedApplyKinds env file ⟨[]⟩ objs).1 objs).2
        = objs.map (fun o => LogEvent.updated (goToLower o.kind) o.name) by rw [hrun2]]
  rw [List.countP_append, List.countP_map, List.countP_map]
  have hz : List.countP ((isCreatedNamed nm)
      ∘ fun o => LogEvent.updated (goToLower o.kind) o.name) objs = 0 := by
    calc List.countP ((isCreatedNamed nm)
          ∘ fun o => LogEvent.updated (goToLower o.kind) o.name) objs
        = List.countP (fun _ => false) objs :=
          List.countP_congr (fun x _ => by simp [isCreatedNamed, Function.comp])
      _ = 0 := by simp
  rw [hz, Nat.add_zero]
  have hcount : List.countP ((isCreatedNamed nm)
      ∘ fun o => LogEvent.created (goToLower o.kind) o.name) objs
      = List.count nm (objs.map DecodedObj.name) := by
    rw [List.count_eq_countP, List.countP_map]
    apply List.countP_congr
    intro x _
    simp [isCreatedNamed, Function.comp]
  rw [hcount]
  exact List.nodup_iff_count_le_one.mp hnames nm

/-- Witness for C1: a two-document batch (a namespace and a deployment in
it) applied twice against an empty cluster under an ideally responsive
remote. -/
theorem apply_twice_idempotent_witness :
    (applyObjects supportedApplyKinds idealEnv "m.yaml" ⟨[]⟩
        [⟨"Namespace", "v1", "", "prombench-42"⟩,
         ⟨"Deployment", "v1", "prombench-42", "loadgen"⟩]).2
      = [LogEvent.created "namespace" "prombench-42",
         LogEvent.created "deployment" "loadgen"] ∧
    (applyObjects supportedApplyKinds idealEnv "m.yaml"
        (applyObjects supportedApplyKinds idealEnv "m.yaml" ⟨[]⟩
          [⟨"Namespace", "v1", "", "prombench-42"⟩,
           ⟨"Deployment", "v1", "prombench-42", "loadgen"⟩]).1
        [⟨"Namespace", "v1", "", "prombench-42"⟩,
         ⟨"Deployment", "v1", "prombench-42", "loadgen"⟩]).2
      = [LogEvent.updated "namespace" "prombench-42",
         LogEvent.updated "deployment" "loadgen"] := by
  have h := apply_twice_idempotent idealEnv "m.yaml"
    [⟨"Namespace", "v1", "", "prombench-42"⟩,
     ⟨"Deployment", "v1", "prombench-42", "loadgen"⟩]
    (by decide) (by decide) (fun key => rfl) (fun d key => rfl) (by decide)
  exact ⟨h.1, h.2.1⟩

theorem applyObject_supported_counts (table : List String) (env : ApiEnv) (file : String)
    (c : Cluster) (o : DecodedObj)
    (htab : table.contains (goToLower o.kind) = true)
    (hver : o.version = expectedVersion (goToLower o.kind))
    (hupd : ∀ key, retryOnConflict env.steps (env.upd key) = Except.ok ())
    (hpoll : ∀ d key, retryUntilTrue d env.retryCount (env.poll key) = Except.ok ()) :
    (applyObject table env file c o).2.countP isErrorEvent = 0 ∧
    (applyObject table env file c o).2.countP isOutcomeEvent = 1 := by
  by_cases hmem : applyKey o ∈ c.items
  · rw [applyObject_existing table env file c o htab hver hmem hupd]
    constructor <;> simp [List.countP_cons, isErrorEvent, isOutcomeEvent]
  · rw [applyObject_fresh table env file c o htab hver hmem hpoll]
    constructor <;> simp [List.countP_cons, isErrorEvent, isOutcomeEvent]

theorem deleteObject_supported (table : List String) (env : ApiEnv) (file : String)
    (c : Cluster) (o : DecodedObj)
    (htab : table.contains (goToLower o.kind) = true)
    (hver : o.version = expectedVersion (goToLower o.kind))
    (hns : ∀ nm, (namespaceDelete env.retryCount (env.nsGet nm) nm "v1").result
      = Except.ok ()) :
    (deleteObject table env file c o).2 = [LogEvent.deleted (goToLower o.kind) o.name] := by
  have hmemT : goToLower o.kind ∈ table := by simpa using htab
  by_cases hkns : goToLower o.kind = "namespace"
  · have hmemT' : "namespace" ∈ table := hkns ▸ hmemT
    have hres := hns o.name
    simp [deleteObject, hmemT', kindDelete, hver, hkns, expectedVersion, hres, errOpt]
  · simp [deleteObject, hmemT, kindDelete, hver, hkns]

theorem deleteObject_unsupported (table : List String) (env : ApiEnv) (file : String)
    (c : Cluster) (o : DecodedObj)
    (htab : table.contains (goToLower o.kind) = false) :
    (deleteObject table env file c o).2
      = [LogEvent.deleteError file
          ("deleting request for unimplimented resource type:" ++ goToLower o.kind)] := by
  have h' : ¬(goToLower o.kind ∈ table) := by simpa using htab
  simp [deleteObject, h']

theorem applyObjects_counts (table : List String) (env : ApiEnv) (file : String) :
    ∀ (objs : List DecodedObj) (c : Cluster),
    (∀ o ∈ objs, table.contains (goToLower o.kind) = true →
      o.version = expectedVersion (goToLower o.kind)) →
    (∀ key, retryOnConflict env.steps (env.upd key) = Except.ok ()) →
    (∀ d key, retryUntilTrue d env.retryCount (env.poll key) = Except.ok ()) →
    (applyObjects table env file c objs).2.countP isErrorEvent
      = objs.countP (fun o => !(table.contains (goToLower o.kind))) ∧
    (applyObjects table env file c objs).2.countP isOutcomeEvent
      = objs.countP (fun o => table.contains (goToLower o.kind)) := by
  intro objs
  induction objs with
  | nil => intro c _ _ _; exact ⟨rfl, rfl⟩
  | cons o os ih =>
    intro c hver hupd hpoll
    have hcons : (applyObjects table env file c (o :: os)).2
        = (applyObject table env file c o).2
          ++ (applyObjects table env file (applyObject table env file c o).1 os).2 := rfl
    have htail := ih (applyObject table env file c o).1
      (fun x hx h => hver x (by simp [hx]) h) hupd hpoll
    by_cases hsup : table.contains (goToLower o.kind) = true
    · have hmemT : goToLower o.kind ∈ table := by simpa using hsup
      have hhead := applyObject_supported_counts table env file c o hsup
        (hver o (by simp) hsup) hupd hpoll
      constructor
      · rw [hcons, List.countP_append, hhead.1, htail.1, List.countP_cons]
        simp [hsup, hmemT]
      · rw [hcons, List.countP_append, hhead.2, htail.2, List.countP_cons]
        simp [hsup, hmemT, Nat.add_comm]
    · have hsup' : table.contains (goToLower o.kind) = false := by
        simpa using hsup
      have hmemF : ¬(goToLower o.kind ∈ table) := by simpa using hsup'
      have hhead := applyObject_unsupported table env file c o hsup'
      constructor
      · rw [hcons, List.countP_append, htail.1, List.countP_cons]
        rw [show (applyObject table env file c o).2
              = [LogEvent.applyError file
                  ("creating request for unimplimented resource type:"
                    ++ goToLower o.kind)] by rw [hhead]]
        simp [hsup', hmemF, isErrorEvent, List.countP_cons, Nat.add_comm]
      · rw [hcons, List.countP_append, htail.2, List.countP_cons]
        rw [show (applyObject table env file c o).2
              = [LogEvent.applyError file
                  ("creating request for unimplimented resource type:"
                    ++ goToLower o.kind)] by rw [hhead]]
        simp [hsup', hmemF, isOutcomeEvent, List.countP_cons]

theorem deleteObjects_counts (table : List String) (env : ApiEnv) (file : String) :
    ∀ (objs : List DecodedObj) (c : Cluster),
    (∀ o ∈ objs, table.contains (goToLower o.kind) = true →
      o.version = expectedVersion (goToLower o.kind)) →
    (∀ nm, (namespaceDelete env.retryCount (env.nsGet nm) nm "v1").result = Except.ok ()) →
    (deleteObjects table env file c objs).2.countP isErrorEvent
      = objs.countP (fun o => !(table.contains (goToLower o.kind))) ∧
    (deleteObjects table env file c objs).2.countP isDeletedEvent
      = objs.countP (fun o => table.contains (goToLower o.kind)) := by
  intro objs
  induction objs with
  | nil => intro c _ _; exact ⟨rfl, rfl⟩
  | cons o os ih =>
    intro c hver hns
    have hcons : (deleteObjects table env file c (o :: os)).2
        = (deleteObject table env file c o).2
          ++ (deleteObjects table env file (deleteObject table env file c o).1 os).2 := rfl
    have htail := ih (deleteObject table env file c o).1
      (fun x hx h => hver x (by simp [hx]) h) hns
    by_cases hsup : table.contains (goToLower o.kind) = true
    · have hmemT : goToLower o.kind ∈ table := by simpa using hsup
      have hhead := deleteObject_supported table env file c o hsup
        (hver o (by simp) hsup) hns
      constructor
      · rw [hcons, List.countP_append, hhead, htail.1, List.countP_cons]
        simp [hsup, hmemT, isErrorEvent, List.countP_cons]
      · rw [hcons, List.countP_append, hhead, htail.2, List.countP_cons]
        simp [hsup, hmemT, isDeletedEvent, List.countP_cons, Nat.add_comm]
    · have hsup' : table.contains (goToLower o.kind) = false := by
        simpa using hsup
      have hmemF : ¬(goToLower o.kind ∈ table) := by simpa using hsup'
      have hhead := deleteObject_unsupported table env file c o hsup'
      constructor
      · rw [hcons, List.countP_append, hhead, htail.1, List.countP_cons]
        simp [hsup', hmemF, isErrorEvent, List.countP_cons, Nat.add_comm]
      · rw [hcons, List.countP_append, hhead, htail.2, List.countP_cons]
        simp [hsup', hmemF, isDeletedEvent, List.countP_cons]

/-- Claim C4: in a batch holding exactly one resource of an unsupported kind
among otherwise supported resources, both the apply and the delete dispatch
produce exactly one logged unsupported-kind error while every one of the
remaining resources is still processed to its created/updated (resp.
deleted) outcome; an unsupported kind never aborts the rest of the run, as
the dispatch loop merely logs its error and moves on. -/
theorem dispatch_partial_failure (env : ApiEnv) (file : String) (c cd : Cluster)
    (objs : List DecodedObj)
    (hone : objs.countP (fun o => !(supportedApplyKinds.contains (goToLower o.kind))) = 1)
    (hver : ∀ o ∈ objs, supportedApplyKinds.contains (goToLower o.kind) = true →
      o.version = expectedVersion (goToLower o.kind))
    (hupd : ∀ key, retryOnConflict env.steps (env.upd key) = Except.ok ())
    (hpoll : ∀ d key, retryUntilTrue d env.retryCount (env.poll key) = Except.ok ())
    (hns : ∀ nm, (namespaceDelete env.retryCount (env.nsGet nm) nm "v1").result
      = Except.ok ()) :
    ((applyObjects supportedApplyKinds env file c objs).2.countP isErrorEvent = 1 ∧
     (applyObjects supportedApplyKinds env file c objs).2.countP isOutcomeEvent
       = objs.length - 1) ∧
    ((deleteObjects supportedApplyKinds env file cd objs).2.countP isErrorEvent = 1 ∧
     (deleteObjects supportedApplyKinds env file cd objs).2.countP isDeletedEvent
       = objs.length - 1) ∧
    (∀ (o : DecodedObj) (os : List DecodedObj) (c' : Cluster),
      supportedApplyKinds.contains (goToLower o.kind) = false →
      applyObjects supportedApplyKinds env file c' (o :: os)
        = ((applyObjects supportedApplyKinds env file c' os).1,
           LogEvent.applyError file
             ("creating request for unimplimented resource type:" ++ goToLower o.kind)
             :: (applyObjects supportedApplyKinds env file c' os).2)) := by
  have hsplit : objs.countP (fun o => supportedApplyKinds.contains (goToLower o.kind))
      = objs.length - 1 := by
    have hlen := List.length_eq_countP_add_countP
      (fun o => supportedApplyKinds.contains (goToLower o.kind)) objs
    have hbridge : objs.countP
        (fun o => decide ¬(supportedApplyKinds.contains (goToLower o.kind) = true))
        = objs.countP (fun o => !(supportedApplyKinds.contains (goToLower o.kind))) :=
      List.countP_congr (fun x _ => by simp)
    omega
  have happly := applyObjects_counts supportedApplyKinds env file objs c hver hupd hpoll
  have hdel := deleteObjects_counts supportedApplyKinds env file objs cd hver hns
  refine ⟨⟨?_, ?_⟩, ⟨?_, ?_⟩, ?_⟩
  · rw [happly.1, hone]
  · rw [happly.2, hsplit]
  · rw [hdel.1, hone]
  · rw [hdel.2, hsplit]
  · intro o os c' hbad
    have h1 := applyObject_unsupported supportedApplyKinds env file c' o hbad
    simp [applyObjects, h1]

/-- Witness for C4: a configmap, an unsupported FooBar and a namespace: both
dispatch loops report one error and process the two supported resources. -/
theorem dispatch_partial_failure_witness :
    (applyObjects supportedApplyKinds idealEnv "m.yaml" ⟨[]⟩ exMixedBatch).2.countP
        isErrorEvent = 1 ∧
    (applyObjects supportedApplyKinds idealEnv "m.yaml" ⟨[]⟩ exMixedBatch).2.countP
        isOutcomeEvent = 2 ∧
    (deleteObjects supportedApplyKinds idealEnv "m.yaml" ⟨[]⟩ exMixedBatch).2.countP
        isErrorEvent = 1 ∧
    (deleteObjects supportedApplyKinds idealEnv "m.yaml" ⟨[]⟩ exMixedBatch).2.countP
        isDeletedEvent = 2 := by
  have h := dispatch_partial_failure idealEnv "m.yaml" ⟨[]⟩ ⟨[]⟩ exMixedBatch
    (by decide) (by decide) (fun key => rfl) (fun d key => rfl) (fun nm => rfl)
  exact ⟨h.1.1, h.1.2.trans (by decide), h.2.1.1, h.2.1.2.trans (by decide)⟩

end Prombench
